import Mathlib

/-!
Shallow embedding of the session analytics / usage-to-cost accounting engine
of this repository (`src/utils/analytics.py`), together with theorems checking
the specification's claims about it.

Modelling conventions:
* Python values that can appear in metric events and usage summaries are
  modelled by `Value`: `None`, `int`, `float`, `str` and `dict`.
  Python ints are unbounded, hence `Int`.  Python floats are modelled by
  `PyFloat`: a finite exact rational, or one of the IEEE special values
  inf, -inf, nan.  Arithmetic on finite floats is exact (IEEE rounding and
  overflow of in-range finite arithmetic, e.g. `1e308 * 1000`, are not
  modelled); the infinities and nan, including the ones produced by
  parsing "inf"/"Infinity"/"nan" and by decimal numerals beyond DBL_MAX,
  are modelled because `int()` of them raises.
* `int(v)` and `float(v)` are partial in Python; they are modelled by
  `pyInt` / `pyFloat` returning `Except PyErr _`, where `PyErr`
  distinguishes `ValueError`, `TypeError` and `OverflowError` — the
  distinction matters because the source's `except (ValueError, TypeError)`
  handlers swallow the first two and let `OverflowError` escape, while
  `_first_int`'s bare `except Exception` swallows everything.
  String numerals are modelled for the plain decimal forms with optional
  sign, fraction and exponent, plus inf/infinity/nan in any case; a few
  exotic spellings (underscore separators, hex floats) are outside the
  model, but no claim turns on them.
* Functions whose Python original can raise return the mutated state
  together with an exception flag; Python mutates counters in place, so on
  an exception path the state component carries the mutations applied
  before the raise.
-/

/-- Python exception classes relevant to the numeric conversions of the
analytics module.  The source guards some sites with
`except (ValueError, TypeError)` (which does not catch `OverflowError`)
and one site with a bare `except Exception` (which catches all three). -/
inductive PyErr where
  | valueError : PyErr
  | typeError : PyErr
  | overflowError : PyErr
deriving DecidableEq, Repr

/-- A Python float: finite value (exact rational) or an IEEE special. -/
inductive PyFloat where
  | fin : Rat → PyFloat
  | inf : PyFloat
  | ninf : PyFloat
  | nan : PyFloat
deriving DecidableEq, Repr

/-- Unary minus on a float (`float("-inf")`; the sign of nan is dropped). -/
def PyFloat.neg : PyFloat → PyFloat
  | .fin q => .fin (-q)
  | .inf => .ninf
  | .ninf => .inf
  | .nan => .nan

/-- Python value universe for untrusted metric/summary fields
(`None`, `int`, `float`, `str`, `dict`). -/
inductive Value where
  | vnone : Value
  | vint : Int → Value
  | vfloat : PyFloat → Value
  | vstr : String → Value
  | vdict : List (String × Value) → Value

/-- Dictionary lookup (first binding wins; concrete Python dicts never
contain a duplicate key). -/
def dlookup : List (String × Value) → String → Option Value
  | [], _ => none
  | (k, v) :: rest, key => if k == key then some v else dlookup rest key

/-- True exactly on the `None` value. -/
def isVNone : Value → Bool
  | .vnone => true
  | _ => false

/-- Python truthiness of a `Value`: `None`, `0`, `0.0`, `""` and `{}` are
falsy, everything else (including inf and nan) is truthy. -/
def truthy : Value → Bool
  | .vnone => false
  | .vint n => n != 0
  | .vfloat (.fin q) => q != 0
  | .vfloat _ => true
  | .vstr s => s != ""
  | .vdict es => !es.isEmpty

/-- Whitespace characters stripped by Python's `str.strip()` (ASCII part). -/
def isPySpace (c : Char) : Bool :=
  c == ' ' || c == '\t' || c == '\n' || c == '\r' || c == '\x0b' || c == '\x0c'

/-- Strip leading and trailing whitespace from a character list. -/
def trimChars (cs : List Char) : List Char :=
  ((cs.dropWhile isPySpace).reverse.dropWhile isPySpace).reverse

/-- Value of a decimal digit character. -/
def digitVal (c : Char) : Option Nat :=
  if c.isDigit then some (c.toNat - 48) else none

/-- Parse a nonempty all-digit character list as a natural number. -/
def digitsToNat (cs : List Char) : Option Nat :=
  if cs.isEmpty then none
  else
    cs.foldl
      (fun acc c =>
        match acc, digitVal c with
        | some n, some d => some (n * 10 + d)
        | _, _ => none)
      (some 0)

/-- Python `int(s)` on a string: optional sign followed by digits
(plain decimal numerals; `int` rejects fractional strings such as "2.5"
and float spellings such as "inf"). -/
def pyStrToInt (s : String) : Option Int :=
  match trimChars s.toList with
  | '-' :: rest => (digitsToNat rest).map (fun n => -(n : Int))
  | '+' :: rest => (digitsToNat rest).map (fun n => (n : Int))
  | cs => (digitsToNat cs).map (fun n => (n : Int))

/-- Split a character list at every occurrence of a separator test. -/
def splitOnPred (p : Char → Bool) : List Char → List (List Char)
  | [] => [[]]
  | c :: rest =>
    if p c then [] :: splitOnPred p rest
    else
      match splitOnPred p rest with
      | [] => [[c]]
      | h :: t => (c :: h) :: t

/-- Split at every '.' (model of Python `s.split(".")`). -/
def splitDot (cs : List Char) : List (List Char) :=
  splitOnPred (fun c => c == '.') cs

/-- Split at every exponent marker 'e' / 'E'. -/
def splitExp (cs : List Char) : List (List Char) :=
  splitOnPred (fun c => c == 'e' || c == 'E') cs

/-- Last '.'-separated segment of a character list
(model of Python `s.split(".")[-1]`). -/
def lastSeg (cs : List Char) : List Char :=
  (splitDot cs).getLast?.getD cs

/-- Parse an unsigned mantissa `d+`, `d+.d*` or `d*.d+` into its digit
value and the number of fractional digits: the denoted number is
`value / 10 ^ fracLen`. -/
def parseMantissa (cs : List Char) : Option (Nat × Nat) :=
  match splitDot cs with
  | [a] => (digitsToNat a).map (fun n => (n, 0))
  | [a, b] =>
    if a.isEmpty && b.isEmpty then none
    else
      match (if a.isEmpty then some 0 else digitsToNat a),
            (if b.isEmpty then some 0 else digitsToNat b) with
      | some n, some m => some (n * 10 ^ b.length + m, b.length)
      | _, _ => none
  | _ => none

/-- Parse an exponent part: optional sign and digits. -/
def parseSignedExp (cs : List Char) : Option Int :=
  match cs with
  | '-' :: rest => (digitsToNat rest).map (fun n => -(n : Int))
  | '+' :: rest => (digitsToNat rest).map (fun n => (n : Int))
  | _ => (digitsToNat cs).map (fun n => (n : Int))

/-- Largest finite IEEE double, as a natural number; the literal is the
exact value of (2^53 - 1) * 2^971. -/
def maxDoubleNat : Nat :=
  179769313486231570814527423731704356798070567525844996598917476803157260780028538760589558632766878171540458953514382464234321326889464182768467546703537516986049910576551282076245490090389328944075868508455133942304583236903222948165808559332123348274797826204144723168738177180919299881250404026184124858368

/-- Largest finite IEEE double, as an integer. -/
def maxDoubleInt : Int := (maxDoubleNat : Int)

/-- Does `mant * 10 ^ t` exceed DBL_MAX?  Decided over naturals. -/
def decExceedsMax (mant : Nat) (t : Int) : Bool :=
  if 0 ≤ t then decide (maxDoubleNat < mant * 10 ^ t.toNat)
  else decide (maxDoubleNat * 10 ^ (-t).toNat < mant)

/-- The rational `mant * 10 ^ t`. -/
def decValue (mant : Nat) (t : Int) : Rat := (mant : Rat) * (10 : Rat) ^ t

/-- The float denoted by an unsigned decimal `mant * 10 ^ t`: exact when in
range, inf past DBL_MAX — Python's `float("1e309")` is inf, not an error. -/
def mkDec (mant : Nat) (t : Int) : PyFloat :=
  if decExceedsMax mant t then .inf else .fin (decValue mant t)

/-- Unsigned numeral with optional fraction and exponent, as a float. -/
def decimalCore (cs : List Char) : Option PyFloat :=
  match splitExp cs with
  | [m] => (parseMantissa m).map (fun p => mkDec p.1 (-(p.2 : Int)))
  | [m, e] =>
    match parseMantissa m, parseSignedExp e with
    | some p, some ex => some (mkDec p.1 (ex - (p.2 : Int)))
    | _, _ => none
  | _ => none

/-- Unsigned float spelling: inf / infinity / nan in any case, else a
numeral. -/
def pyStrCore (cs : List Char) : Option PyFloat :=
  let low := cs.map Char.toLower
  if low = ['i', 'n', 'f'] ∨ low = ['i', 'n', 'f', 'i', 'n', 'i', 't', 'y'] then
    some .inf
  else if low = ['n', 'a', 'n'] then some .nan
  else decimalCore cs

/-- Python `float(s)` on a string: optional sign and an unsigned float
spelling. -/
def pyStrToFloat (s : String) : Option PyFloat :=
  match trimChars s.toList with
  | '-' :: rest => (pyStrCore rest).map PyFloat.neg
  | '+' :: rest => pyStrCore rest
  | cs => pyStrCore cs

/-- Python `int()` truncation of a finite real number: toward zero. -/
def pyTrunc (q : Rat) : Int := if q < 0 then ⌈q⌉ else ⌊q⌋

/-- Python `int(f)` on a float: truncate a finite value; `OverflowError`
on an infinity, `ValueError` on nan. -/
def pyFloatToInt : PyFloat → Except PyErr Int
  | .fin q => .ok (pyTrunc q)
  | .inf => .error .overflowError
  | .ninf => .error .overflowError
  | .nan => .error .valueError

/-- Float multiplication by 1000 (the seconds-to-ms conversion).  Finite
values stay exact; the specials propagate.  (IEEE overflow of an in-range
finite value at this multiplication is not modelled.) -/
def pyFloatMul1000 : PyFloat → PyFloat
  | .fin q => .fin (q * 1000)
  | .inf => .inf
  | .ninf => .ninf
  | .nan => .nan

/-- Python `int(v)`: ints pass through, floats truncate (raising on
inf/nan), strings must be integer numerals, `None` and dicts raise
`TypeError`. -/
def pyInt : Value → Except PyErr Int
  | .vnone => .error .typeError
  | .vint n => .ok n
  | .vfloat f => pyFloatToInt f
  | .vstr s =>
    match pyStrToInt s with
    | some n => .ok n
    | none => .error .valueError
  | .vdict _ => .error .typeError

/-- Python `float(v)`: an int beyond DBL_MAX raises `OverflowError`, a
non-numeral string raises `ValueError`, `None` and dicts raise
`TypeError`. -/
def pyFloat : Value → Except PyErr PyFloat
  | .vnone => .error .typeError
  | .vint n =>
    if maxDoubleInt < n ∨ n < -maxDoubleInt then .error .overflowError
    else .ok (.fin (n : Rat))
  | .vfloat f => .ok f
  | .vstr s =>
    match pyStrToFloat s with
    | some f => .ok f
    | none => .error .valueError
  | .vdict _ => .error .typeError

/-- Python `int(float(v))`, uncaught. -/
def int_float (v : Value) : Except PyErr Int :=
  match pyFloat v with
  | .error e => .error e
  | .ok f => pyFloatToInt f

/-- Python `int(float(v) * 1000)`, uncaught. -/
def int_float_x1000 (v : Value) : Except PyErr Int :=
  match pyFloat v with
  | .error e => .error e
  | .ok f => pyFloatToInt (pyFloatMul1000 f)

/-- A `try/except (ValueError, TypeError)` around an integer conversion:
those two are swallowed (`ok none`, the code then keeps its preassigned
0), an `OverflowError` escapes. -/
def catchVT : Except PyErr Int → Except PyErr (Option Int)
  | .ok n => .ok (some n)
  | .error .valueError => .ok none
  | .error .typeError => .ok none
  | .error e => .error e

/-- Model of `_first_int(*vals, default=0)` (analytics.py lines 39-48):
return `int(v)` of the first value that is not `None` and converts without
an exception, else the default.  The bare `except Exception` swallows
every conversion error, `OverflowError` included (`None` values are
skipped by the explicit `is None` test, which the `TypeError` of `pyInt`
mirrors). -/
def _first_int (vals : List Value) (default : Int) : Int :=
  match vals with
  | [] => default
  | v :: rest =>
    match pyInt v with
    | .ok iv => iv
    | .error _ => _first_int rest default

/-- Substring helper: does the second list start with the first one? -/
def leadMatch : List Char → List Char → Bool
  | [], _ => true
  | _ :: _, [] => false
  | p :: ps, c :: cs => p == c && leadMatch ps cs

/-- Substring occurrence test (model of Python's `pat in s`). -/
def hasSub (pat : List Char) : List Char → Bool
  | [] => leadMatch pat []
  | c :: rest => leadMatch pat (c :: rest) || hasSub pat rest

/-- Model of Python's substring containment `pat in s`. -/
def strContains (s pat : String) : Bool := hasSub pat.toList s.toList

/-- ASCII lowercase of a string (model of `str.lower()` on the ASCII names
appearing here). -/
def lowerStr (s : String) : String := String.mk (s.toList.map Char.toLower)

/-- Textual representation of a value, used only by the type normalizer.
For strings it is the string itself, for ints the decimal numeral and for
the float specials "inf"/"-inf"/"nan", exactly as in Python.  For finite
floats and dicts Python's `str()` never yields a text that normalizes to
one of the recognized provider tags ("llm", "stt", "tts"); the placeholder
spellings used here have the same property, so the category computed below
agrees with Python on every value. -/
def pyStr : Value → String
  | .vnone => "None"
  | .vint n => toString n
  | .vfloat (.fin q) => "float:" ++ toString q.num ++ "/" ++ toString q.den
  | .vfloat .inf => "inf"
  | .vfloat .ninf => "-inf"
  | .vfloat .nan => "nan"
  | .vstr s => s
  | .vdict _ => "dictrepr"

/-- Model of `_norm_metric_type` (analytics.py lines 20-37): `None` maps to
"", otherwise `str(v).strip().lower()`, keeping only the part after the last
'.' when one occurs.  (The `getattr(v, "value", None)` enum probe is `None`
for every plain value modelled here, so that branch never fires.) -/
def _norm_metric_type (v : Value) : String :=
  match v with
  | .vnone => ""
  | _ =>
    let cs := (trimChars (pyStr v).toList).map Char.toLower
    String.mk (if cs.contains '.' then lastSeg cs else cs)

/-- Model of `_get(obj, key, default)` (analytics.py lines 12-18) applied to
a nested value: `None` yields the default, dicts use `dict.get`, and on any
other value `getattr` misses (ints/floats/strings have none of the metric
attribute names used here), yielding the default. -/
def vget (obj : Value) (key : String) (default : Value) : Value :=
  match obj with
  | .vnone => default
  | .vdict es => (dlookup es key).getD default
  | _ => default

/-- Model of the `UsageTotals` dataclass (analytics.py lines 63-76). -/
structure UsageTotals where
  llm_input_tokens : Int := 0
  llm_output_tokens : Int := 0
  stt_audio_ms : Int := 0
  tts_chars : Int := 0
  session_ms : Int := 0
deriving DecidableEq, Repr

/-- Freshly constructed totals: every counter zero. -/
def zeroTotals : UsageTotals := {}

/-- Componentwise sum of two totals. -/
def addT (a b : UsageTotals) : UsageTotals :=
  { llm_input_tokens := a.llm_input_tokens + b.llm_input_tokens
    llm_output_tokens := a.llm_output_tokens + b.llm_output_tokens
    stt_audio_ms := a.stt_audio_ms + b.stt_audio_ms
    tts_chars := a.tts_chars + b.tts_chars
    session_ms := a.session_ms + b.session_ms }

/-- One LiveKit metric record: `None`, or an object/dict with a class name
and key/value fields.  A plain Python dict is `obj "dict" fields`; for both
dicts and attribute objects `_get` reduces to field lookup with default. -/
inductive Metric where
  | mnone : Metric
  | obj : String → List (String × Value) → Metric

/-- Python truthiness of a metric record: `None` is falsy, a dict is truthy
iff nonempty, any other object is truthy. -/
def truthyMetric : Metric → Bool
  | .mnone => false
  | .obj className fields => className != "dict" || !fields.isEmpty

/-- Category discriminator of `ingest_metrics` (analytics.py lines 103-114):
substring match on the lowercased class name, falling back to the
normalized `type` field. -/
def metricCategory (className : String) (fields : List (String × Value)) : String :=
  let clsLower := lowerStr className
  if strContains clsLower "stt" then "stt"
  else if strContains clsLower "llm" then "llm"
  else if strContains clsLower "tts" then "tts"
  else _norm_metric_type ((dlookup fields "type").getD .vnone)

/-- The `dur_ms` computation of `ingest_metrics` (analytics.py lines
117-130).  Its value is never read afterwards, but its conversions are
guarded only by `except (ValueError, TypeError)`: an `OverflowError`
(e.g. `duration_ms = "inf"`) escapes for an event of ANY category.  This
returns the escaped exception, if one occurs. -/
def durBlockErr (fields : List (String × Value)) : Option PyErr :=
  let dur_sec := (dlookup fields "duration").getD .vnone
  let dur_ms_attr := (dlookup fields "duration_ms").getD .vnone
  if isVNone dur_ms_attr = false then
    match catchVT (int_float dur_ms_attr) with
    | .error e => some e
    | .ok _ => none
  else if isVNone dur_sec = false then
    match catchVT (int_float_x1000 dur_sec) with
    | .error e => some e
    | .ok _ => none
  else none

/-- Input-token extraction of the llm branch (analytics.py lines 135-141):
nested usage object first (guarded by its truthiness), then top-level
fields.  Never raises: everything goes through `_first_int`. -/
def llmInputDelta (fields : List (String × Value)) : Int :=
  let usage := (dlookup fields "usage").getD .vnone
  _first_int
    [if truthy usage then vget usage "input_tokens" .vnone else .vnone,
     if truthy usage then vget usage "prompt_tokens" .vnone else .vnone,
     (dlookup fields "input_tokens").getD .vnone,
     (dlookup fields "prompt_tokens").getD .vnone] 0

/-- Output-token extraction of the llm branch (analytics.py lines 142-148). -/
def llmOutputDelta (fields : List (String × Value)) : Int :=
  let usage := (dlookup fields "usage").getD .vnone
  _first_int
    [if truthy usage then vget usage "output_tokens" .vnone else .vnone,
     if truthy usage then vget usage "completion_tokens" .vnone else .vnone,
     (dlookup fields "output_tokens").getD .vnone,
     (dlookup fields "completion_tokens").getD .vnone] 0

/-- Audio-duration extraction of the stt branch (analytics.py lines
150-165): when `audio_duration` is present (not `None`) it is converted via
`int(float(v) * 1000)` under `except (ValueError, TypeError)` — a caught
failure keeps the initial 0, an `OverflowError` (value inf, huge int)
escapes.  Only when the field is absent does the code fall back to
`_first_int(audio_duration_ms, audio_ms)`. -/
def sttDelta (fields : List (String × Value)) : Except PyErr Int :=
  let audio_dur := (dlookup fields "audio_duration").getD .vnone
  if isVNone audio_dur then
    .ok (_first_int
      [(dlookup fields "audio_duration_ms").getD .vnone,
       (dlookup fields "audio_ms").getD .vnone] 0)
  else
    match catchVT (int_float_x1000 audio_dur) with
    | .error e => .error e
    | .ok none => .ok 0
    | .ok (some n) => .ok n

/-- Character-count extraction of the tts branch (analytics.py lines
168-174).  Never raises. -/
def ttsDelta (fields : List (String × Value)) : Int :=
  _first_int
    [(dlookup fields "characters_count").getD .vnone,
     (dlookup fields "character_count").getD .vnone,
     (dlookup fields "chars").getD .vnone] 0

/-- Processing of one metric of the `ingest_metrics` loop (analytics.py
lines 99-174): category detection, then the (dead-valued but raising)
duration block, then the per-category counter update.  The Bool component
records an escaped exception; the state component is the state at that
moment (an exception in the duration block or the stt conversion escapes
before the branch mutation). -/
def ingestOne (u : UsageTotals) (m : Metric) : UsageTotals × Bool :=
  match m with
  | .mnone => (u, false)
  | .obj className fields =>
    let mtype := metricCategory className fields
    match durBlockErr fields with
    | some _ => (u, true)
    | none =>
      if mtype = "llm" then
        ({ u with
            llm_input_tokens := u.llm_input_tokens + llmInputDelta fields
            llm_output_tokens := u.llm_output_tokens + llmOutputDelta fields },
         false)
      else if mtype = "stt" then
        match sttDelta fields with
        | .error _ => (u, true)
        | .ok n => ({ u with stt_audio_ms := u.stt_audio_ms + n }, false)
      else if mtype = "tts" then
        ({ u with tts_chars := u.tts_chars + ttsDelta fields }, false)
      else (u, false)

/-- The `for m in metrics_list` loop: an exception escaping one iteration
propagates immediately, leaving earlier iterations' mutations in place and
later metrics unprocessed. -/
def ingestLoop (u : UsageTotals) : List Metric → UsageTotals × Bool
  | [] => (u, false)
  | m :: rest =>
    match ingestOne u m with
    | (u2, true) => (u2, true)
    | (u2, false) => ingestLoop u2 rest

/-- Argument shape accepted by `ingest_metrics`: a single metric record or a
list of them. -/
inductive MetricsInput where
  | single : Metric → MetricsInput
  | batch : List Metric → MetricsInput

/-- Python truthiness of the `ingest_metrics` argument. -/
def truthyInput : MetricsInput → Bool
  | .single m => truthyMetric m
  | .batch ms => !ms.isEmpty

/-- Normalization of the argument to a list (analytics.py line 97). -/
def toMetricList : MetricsInput → List Metric
  | .single m => [m]
  | .batch ms => ms

/-- Model of `SessionAnalytics.ingest_metrics` (analytics.py lines 88-174):
falsy input returns immediately, otherwise every metric of the normalized
list is processed in order until one raises.  The Bool component records
an escaped exception. -/
def ingest_metrics (u : UsageTotals) (inp : MetricsInput) : UsageTotals × Bool :=
  if truthyInput inp then ingestLoop u (toMetricList inp) else (u, false)

/-- The llm block of `ingest_usage_summary` (analytics.py lines 195-207).
`none` models an escaped exception: when `llm_data` is truthy but not a
dict, `llm_data.get(...)` raises `AttributeError` before any mutation. -/
def summaryLLMStep (llm_data : Value) (u : UsageTotals) : Option UsageTotals :=
  if truthy llm_data then
    match llm_data with
    | .vdict d =>
      some { u with
        llm_input_tokens := u.llm_input_tokens +
          _first_int
            [(dlookup d "input_tokens").getD .vnone,
             (dlookup d "prompt_tokens").getD .vnone] 0
        llm_output_tokens := u.llm_output_tokens +
          _first_int
            [(dlookup d "output_tokens").getD .vnone,
             (dlookup d "completion_tokens").getD .vnone] 0 }
    | _ => none
  else some u

/-- The third argument passed to `_first_int` in the stt block (analytics.py
line 216): `int(float(stt_data.get("audio_duration", 0)) * 1000) if
stt_data.get("audio_duration") else 0`.  The conversion here is NOT wrapped
in any `try/except`, so on a truthy but unconvertible value — or an
infinite one, where `int()` raises — the exception escapes (`none`); the
argument is evaluated before `_first_int` runs, regardless of the earlier
arguments. -/
def sttThirdArg (d : List (String × Value)) : Option Value :=
  if truthy ((dlookup d "audio_duration").getD .vnone) then
    match int_float_x1000 ((dlookup d "audio_duration").getD (.vint 0)) with
    | .ok n => some (.vint n)
    | .error _ => none
  else some (.vint 0)

/-- The stt block of `ingest_usage_summary` (analytics.py lines 209-218).
Note the fallback order: `audio_duration_ms` first, then `audio_ms`, and the
seconds-denominated `audio_duration` conversion only third. -/
def summarySTTStep (stt_data : Value) (u : UsageTotals) : Option UsageTotals :=
  if truthy stt_data then
    match stt_data with
    | .vdict d =>
      match sttThirdArg d with
      | none => none
      | some third =>
        some { u with
          stt_audio_ms := u.stt_audio_ms +
            _first_int
              [(dlookup d "audio_duration_ms").getD .vnone,
               (dlookup d "audio_ms").getD .vnone, third] 0 }
    | _ => none
  else some u

/-- The tts block of `ingest_usage_summary` (analytics.py lines 220-228). -/
def summaryTTSStep (tts_data : Value) (u : UsageTotals) : Option UsageTotals :=
  if truthy tts_data then
    match tts_data with
    | .vdict d =>
      some { u with
        tts_chars := u.tts_chars +
          _first_int
            [(dlookup d "characters_count").getD .vnone,
             (dlookup d "character_count").getD .vnone,
             (dlookup d "chars").getD .vnone] 0 }
    | _ => none
  else some u

/-- Model of `SessionAnalytics.ingest_usage_summary` (analytics.py lines
176-228).  Result: the totals after the call together with an exception
flag.  Python mutates `self.usage` in place block by block, so when a later
block raises, the mutations of the earlier blocks persist: the totals
component carries the state at the moment the exception escapes. -/
def ingest_usage_summary (u0 : UsageTotals) (summary : Value) :
    UsageTotals × Bool :=
  match summary with
  | .vdict entries =>
    if entries.isEmpty then (u0, false)
    else
      match summaryLLMStep ((dlookup entries "llm").getD (.vdict [])) u0 with
      | none => (u0, true)
      | some u1 =>
        match summarySTTStep ((dlookup entries "stt").getD (.vdict [])) u1 with
        | none => (u1, true)
        | some u2 =>
          match summaryTTSStep ((dlookup entries "tts").getD (.vdict [])) u2 with
          | none => (u2, true)
          | some u3 => (u3, false)
  | _ => (u0, false)

/-- Model of the `PricingUSD` dataclass (analytics.py lines 50-61); the
Python float constants are modelled by the exact decimals they denote. -/
structure PricingUSD where
  openai_in_per_million : Rat := 0.40
  openai_out_per_million : Rat := 1.60
  deepgram_per_min : Rat := 0.0077
  cartesia_per_100k_chars : Rat := 5.0
  bey_per_min : Rat := 49.0 / 140.0

/-- Default pricing table, as constructed by `PricingUSD()`. -/
def defaultPricing : PricingUSD := {}

/-- Model of the `SessionAnalytics` dataclass state (analytics.py lines
78-85); timestamps are epoch seconds as exact rationals. -/
structure SessionAnalytics where
  pricing : PricingUSD := {}
  started_at_utc : Rat
  ended_at_utc : Option Rat := none
  usage : UsageTotals := {}

/-- Model of `SessionAnalytics.end` (analytics.py lines 230-234); `now` is
the `datetime.now()` sample taken when `ended_at_utc` is still unset. -/
def «end» (s : SessionAnalytics) (now : Rat) : SessionAnalytics :=
  let ended := s.ended_at_utc.getD now
  let delta_ms := pyTrunc ((ended - s.started_at_utc) * 1000)
  { s with
    ended_at_utc := some ended
    usage := { s.usage with session_ms := max 0 delta_ms } }

/-- Python's `round` to an integer: banker's rounding (half to even). -/
def roundHalfToEven (q : Rat) : Int :=
  let f := ⌊q⌋
  let frac := q - (f : Rat)
  if frac < 1/2 then f
  else if 1/2 < frac then f + 1
  else if f % 2 = 0 then f else f + 1

/-- Python's `round(q, k)` for nonnegative `k`. -/
def roundTo (q : Rat) (k : Nat) : Rat :=
  (roundHalfToEven (q * (10 : Rat) ^ k) : Rat) / (10 : Rat) ^ k

/-- Per-provider cost breakdown of the report. -/
structure CostBreakdown where
  openai : Rat
  deepgram : Rat
  cartesia : Rat
  bey : Rat

/-- Usage digest of the report. -/
structure UsageDigest where
  llm_input_tokens : Int
  llm_output_tokens : Int
  stt_audio_minutes : Rat
  tts_characters : Int
  session_minutes : Rat

/-- Shape of the value returned by `compute_cost_usd`. -/
structure CostReport where
  total_usd : Rat
  breakdown_usd : CostBreakdown
  usage : UsageDigest

/-- Model of `SessionAnalytics.compute_cost_usd` (analytics.py lines
237-265). -/
def compute_cost_usd (p : PricingUSD) (u : UsageTotals) : CostReport :=
  let openai :=
    ((u.llm_input_tokens : Rat) / 1000000) * p.openai_in_per_million +
    ((u.llm_output_tokens : Rat) / 1000000) * p.openai_out_per_million
  let deepgram := ((u.stt_audio_ms : Rat) / 60000) * p.deepgram_per_min
  let cartesia := ((u.tts_chars : Rat) / 100000) * p.cartesia_per_100k_chars
  let bey := ((u.session_ms : Rat) / 60000) * p.bey_per_min
  let total := openai + deepgram + cartesia + bey
  { total_usd := roundTo total 6
    breakdown_usd :=
      { openai := roundTo openai 6
        deepgram := roundTo deepgram 6
        cartesia := roundTo cartesia 6
        bey := roundTo bey 6 }
    usage :=
      { llm_input_tokens := u.llm_input_tokens
        llm_output_tokens := u.llm_output_tokens
        stt_audio_minutes := roundTo ((u.stt_audio_ms : Rat) / 60000) 4
        tts_characters := u.tts_chars
        session_minutes := roundTo ((u.session_ms : Rat) / 60000) 4 } }

/-- Model of `SessionAnalytics.report` (analytics.py lines 267-271): call
`end`, then wrap the cost report in a single-key mapping.  The first
component is the mutated session (Python mutates `self`). -/
def report (s : SessionAnalytics) (now : Rat) :
    SessionAnalytics × List (String × CostReport) :=
  let s2 := «end» s now
  (s2, [("cost", compute_cost_usd s2.pricing s2.usage)])

/-- One ingestion call, for stating properties over call sequences. -/
inductive IngestOp where
  | event : MetricsInput → IngestOp
  | summary : Value → IngestOp

/-- Run one ingestion call against the session (an exception escaping the
call leaves the partially mutated state behind). -/
def applyOp (s : SessionAnalytics) : IngestOp → SessionAnalytics
  | .event i => { s with usage := (ingest_metrics s.usage i).1 }
  | .summary v => { s with usage := (ingest_usage_summary s.usage v).1 }

/-- Run a sequence of ingestion calls. -/
def applyOps (s : SessionAnalytics) (ops : List IngestOp) : SessionAnalytics :=
  ops.foldl applyOp s

/-! Nonnegativity of inputs.  The extraction code reads numeric values at
the top level of an event's fields and one level below (the nested "usage"
dict); a dict nested deeper can never contribute a number since `int()` of
a dict fails.  Hence nonnegativity need only constrain leaves down to that
depth.  Infinite and nan floats never become a counter increment — `int()`
of them raises — so they are unconstrained. -/

/-- Every number this leaf value can convert to is nonnegative. -/
def leafNonNeg : Value → Bool
  | .vint n => decide (0 ≤ n)
  | .vfloat (.fin q) => decide (0 ≤ q)
  | .vfloat _ => true
  | .vstr s =>
    (match pyStrToInt s with
     | some n => decide (0 ≤ n)
     | none => true) &&
    (match pyStrToFloat s with
     | some (.fin q) => decide (0 ≤ q)
     | _ => true)
  | _ => true

/-- Nonnegativity one dict level deep. -/
def shallowNonNeg : Value → Bool
  | .vdict d => d.all (fun p => leafNonNeg p.2)
  | v => leafNonNeg v

/-- Nonnegativity of all of an event's numeric material. -/
def fieldsNonNeg (fields : List (String × Value)) : Bool :=
  fields.all (fun p => shallowNonNeg p.2)

/-- Nonnegativity of a metric record. -/
def metricNonNeg : Metric → Bool
  | .mnone => true
  | .obj _ fields => fieldsNonNeg fields

/-- Nonnegativity of an `ingest_metrics` argument. -/
def inputNonNeg : MetricsInput → Bool
  | .single m => metricNonNeg m
  | .batch ms => ms.all metricNonNeg

/-- Nonnegativity of a usage summary's numeric material. -/
def summaryNonNeg : Value → Bool
  | .vdict l => l.all (fun p => shallowNonNeg p.2)
  | _ => true

/-- Pointwise: every counter of the first totals is bounded by the second,
except the session counter, which both ingestion operations leave alone. -/
def monoLe (a b : UsageTotals) : Prop :=
  a.llm_input_tokens ≤ b.llm_input_tokens ∧
  a.llm_output_tokens ≤ b.llm_output_tokens ∧
  a.stt_audio_ms ≤ b.stt_audio_ms ∧
  a.tts_chars ≤ b.tts_chars

/-- Decidable equality for `Except`, used to decide hypotheses about
conversion results. -/
instance exceptDecEq {e a : Type} [DecidableEq e] [DecidableEq a] :
    DecidableEq (Except e a)
  | .ok x, .ok y =>
    match decEq x y with
    | isTrue h => isTrue (h ▸ rfl)
    | isFalse h => isFalse (fun hh => h (Except.ok.inj hh))
  | .error x, .error y =>
    match decEq x y with
    | isTrue h => isTrue (h ▸ rfl)
    | isFalse h => isFalse (fun hh => h (Except.error.inj hh))
  | .ok _, .error _ => isFalse (fun hh => Except.noConfusion hh)
  | .error _, .ok _ => isFalse (fun hh => Except.noConfusion hh)

/-! Helper lemmas. -/

/-- A successful lookup forces a nonempty dictionary. -/
theorem dlookup_some_not_nil {l : List (String × Value)} {k : String} {v : Value}
    (h : dlookup l k = some v) : l.isEmpty = false := by
  cases l with
  | nil => simp [dlookup] at h
  | cons p rest => rfl

/-- Values reached by lookup inherit a pointwise boolean property. -/
theorem dlookup_prop {Q : Value → Bool} {l : List (String × Value)}
    (hall : l.all (fun p => Q p.2) = true) {k : String} {v : Value}
    (h : dlookup l k = some v) : Q v = true := by
  induction l with
  | nil => simp [dlookup] at h
  | cons p rest ih =>
    simp only [List.all_cons, Bool.and_eq_true] at hall
    simp only [dlookup] at h
    split at h
    · cases h; exact hall.1
    · exact ih hall.2 h

/-- Lookup-with-`None`-default version of `dlookup_prop`. -/
theorem dlookup_getD_prop {Q : Value → Bool} {l : List (String × Value)}
    (hall : l.all (fun p => Q p.2) = true) (hnone : Q .vnone = true)
    (k : String) : Q ((dlookup l k).getD .vnone) = true := by
  cases h : dlookup l k with
  | none => simpa using hnone
  | some v => simpa using dlookup_prop hall h

/-- Lower bound for `_first_int` when every convertible candidate is
bounded below. -/
theorem _first_int_nonneg {vals : List Value} {d : Int}
    (h : ∀ v ∈ vals, ∀ n, pyInt v = .ok n → 0 ≤ n) (hd : 0 ≤ d) :
    0 ≤ _first_int vals d := by
  induction vals with
  | nil => exact hd
  | cons v rest ih =>
    simp only [_first_int]
    cases hv : pyInt v with
    | error e => exact ih (fun w hw => h w (by simp [hw]))
    | ok n => exact h v (by simp) n hv

/-- Truncation toward zero preserves nonnegativity. -/
theorem pyTrunc_nonneg {q : Rat} (h : 0 ≤ q) : 0 ≤ pyTrunc q := by
  rw [pyTrunc, if_neg (by exact not_lt.mpr h)]
  exact Int.le_floor.mpr (by exact_mod_cast h)

/-- A caught conversion that produced a value really converted. -/
theorem catchVT_ok_some {r : Except PyErr Int} {k : Int}
    (h : catchVT r = .ok (some k)) : r = .ok k := by
  cases r with
  | ok n =>
    injection h with h2
    injection h2 with h3
    rw [h3]
  | error e => cases e <;> simp [catchVT] at h

/-- A successful `int(float(v) * 1000)` comes from a finite float. -/
theorem int_float_x1000_ok {v : Value} {k : Int}
    (h : int_float_x1000 v = .ok k) :
    ∃ q, pyFloat v = .ok (.fin q) ∧ k = pyTrunc (q * 1000) := by
  rw [int_float_x1000] at h
  rcases hf : pyFloat v with e | f
  · rw [hf] at h; cases h
  · rw [hf] at h
    cases f with
    | fin q =>
      refine ⟨q, rfl, ?_⟩
      simp only [pyFloatMul1000, pyFloatToInt, Except.ok.injEq] at h
      exact h.symm
    | inf => simp [pyFloatMul1000, pyFloatToInt] at h
    | ninf => simp [pyFloatMul1000, pyFloatToInt] at h
    | nan => simp [pyFloatMul1000, pyFloatToInt] at h

/-- Componentwise sum with the zero totals is the identity. -/
theorem addT_zero (u : UsageTotals) : addT u zeroTotals = u := by
  simp [addT, zeroTotals]

/-- Componentwise sum is associative. -/
theorem addT_assoc (a b c : UsageTotals) :
    addT (addT a b) c = addT a (addT b c) := by
  simp [addT, Int.add_assoc]

/-- Falsy metrics are exactly the ones the loop body ignores for free:
`None`, and the empty dict. -/
theorem ingestOne_of_falsy {m : Metric} (h : truthyMetric m = false)
    (u : UsageTotals) : ingestOne u m = (u, false) := by
  cases m with
  | mnone => rfl
  | obj cn fields =>
    simp only [truthyMetric, Bool.or_eq_false_iff, bne_eq_false_iff_eq,
      Bool.not_eq_false', List.isEmpty_iff] at h
    obtain ⟨rfl, rfl⟩ := h
    rfl

/-- `ingestOne` never touches the session counter. -/
theorem ingestOne_session (u : UsageTotals) (m : Metric) :
    ((ingestOne u m).1).session_ms = u.session_ms := by
  cases m with
  | mnone => rfl
  | obj cn fields =>
    rw [ingestOne]
    rcases hd : durBlockErr fields with _ | e
    · simp only [hd]
      split
      · rfl
      · split
        · rcases hs : sttDelta fields with e2 | n <;> simp only [hs]
        · split <;> rfl
    · simp only [hd]

/-- The loop never touches the session counter. -/
theorem ingestLoop_session (ms : List Metric) :
    ∀ u : UsageTotals, ((ingestLoop u ms).1).session_ms = u.session_ms := by
  induction ms with
  | nil => intro u; rfl
  | cons m rest ih =>
    intro u
    rw [ingestLoop]
    rcases hm : ingestOne u m with ⟨u2, b⟩
    have h2 : u2.session_ms = u.session_ms := by
      have h3 := ingestOne_session u m
      rw [hm] at h3
      exact h3
    cases b
    · exact (ih u2).trans h2
    · exact h2

/-- `ingest_metrics` never touches the session counter, on the normal and
the exception paths alike. -/
theorem ingest_metrics_session (u : UsageTotals) (inp : MetricsInput) :
    ((ingest_metrics u inp).1).session_ms = u.session_ms := by
  rw [ingest_metrics]
  split
  · exact ingestLoop_session _ u
  · rfl

/-- The llm summary block is a state shift: its effect on any starting
totals is the effect on zero totals, added on. -/
theorem summaryLLMStep_shift (v : Value) (u : UsageTotals) :
    summaryLLMStep v u
      = (summaryLLMStep v zeroTotals).map (fun w => addT u w) := by
  by_cases ht : truthy v = true
  · cases v <;> simp [summaryLLMStep, ht, addT, zeroTotals]
  · simp [summaryLLMStep, ht, addT, zeroTotals]

/-- The stt summary block is a state shift. -/
theorem summarySTTStep_shift (v : Value) (u : UsageTotals) :
    summarySTTStep v u
      = (summarySTTStep v zeroTotals).map (fun w => addT u w) := by
  by_cases ht : truthy v = true
  · cases v with
    | vdict d =>
      rcases h : sttThirdArg d with _ | third <;>
        simp [summarySTTStep, ht, h, addT, zeroTotals]
    | vnone => simp [summarySTTStep, ht]
    | vint n => simp [summarySTTStep, ht]
    | vfloat q => simp [summarySTTStep, ht]
    | vstr s => simp [summarySTTStep, ht]
  · simp [summarySTTStep, ht, addT, zeroTotals]

/-- The tts summary block is a state shift. -/
theorem summaryTTSStep_shift (v : Value) (u : UsageTotals) :
    summaryTTSStep v u
      = (summaryTTSStep v zeroTotals).map (fun w => addT u w) := by
  by_cases ht : truthy v = true
  · cases v <;> simp [summaryTTSStep, ht, addT, zeroTotals]
  · simp [summaryTTSStep, ht, addT, zeroTotals]

/-- `ingest_usage_summary` decomposes into the starting totals plus a delta
that depends only on the summary (this also covers the exception paths,
where the delta is the partial contribution applied before the raise), and
raises independently of the starting totals. -/
theorem ingest_usage_summary_shift (u : UsageTotals) (s : Value) :
    (ingest_usage_summary u s).1 = addT u ((ingest_usage_summary zeroTotals s).1) ∧
    (ingest_usage_summary u s).2 = (ingest_usage_summary zeroTotals s).2 := by
  cases s with
  | vdict entries =>
    rw [ingest_usage_summary, ingest_usage_summary]
    by_cases he : entries.isEmpty
    · simp [he, addT_zero]
    · simp only [he, Bool.false_eq_true, if_neg, not_false_eq_true]
      rw [summaryLLMStep_shift]
      rcases h1 : summaryLLMStep ((dlookup entries "llm").getD (.vdict [])) zeroTotals
        with _ | d1
      · simp [addT_zero]
      · simp only [Option.map_some']
        rw [summarySTTStep_shift ((dlookup entries "stt").getD (.vdict [])) (addT u d1),
            summarySTTStep_shift ((dlookup entries "stt").getD (.vdict [])) d1]
        rcases h2 : summarySTTStep ((dlookup entries "stt").getD (.vdict [])) zeroTotals
          with _ | d2
        · simp
        · simp only [Option.map_some']
          rw [summaryTTSStep_shift ((dlookup entries "tts").getD (.vdict []))
                (addT (addT u d1) d2),
              summaryTTSStep_shift ((dlookup entries "tts").getD (.vdict []))
                (addT d1 d2)]
          rcases h3 : summaryTTSStep ((dlookup entries "tts").getD (.vdict [])) zeroTotals
            with _ | d3
          · simp [addT_assoc]
          · simp [addT_assoc]
  | vnone => simp [ingest_usage_summary, addT_zero]
  | vint n => simp [ingest_usage_summary, addT_zero]
  | vfloat q => simp [ingest_usage_summary, addT_zero]
  | vstr str => simp [ingest_usage_summary, addT_zero]

/-- No summary block touches the session counter (llm case). -/
theorem summaryLLMStep_session {v : Value} {u w : UsageTotals}
    (h : summaryLLMStep v u = some w) : w.session_ms = u.session_ms := by
  by_cases ht : truthy v = true
  · cases v with
    | vdict d =>
      simp [summaryLLMStep, ht] at h
      simp [← h]
    | vnone => simp [summaryLLMStep, ht] at h
    | vint n => simp [summaryLLMStep, ht] at h
    | vfloat q => simp [summaryLLMStep, ht] at h
    | vstr s => simp [summaryLLMStep, ht] at h
  · simp [summaryLLMStep, ht] at h
    simp [← h]

/-- No summary block touches the session counter (stt case). -/
theorem summarySTTStep_session {v : Value} {u w : UsageTotals}
    (h : summarySTTStep v u = some w) : w.session_ms = u.session_ms := by
  by_cases ht : truthy v = true
  · cases v with
    | vdict d =>
      rcases h3 : sttThirdArg d with _ | third
      · simp [summarySTTStep, ht, h3] at h
      · simp [summarySTTStep, ht, h3] at h
        simp [← h]
    | vnone => simp [summarySTTStep, ht] at h
    | vint n => simp [summarySTTStep, ht] at h
    | vfloat q => simp [summarySTTStep, ht] at h
    | vstr s => simp [summarySTTStep, ht] at h
  · simp [summarySTTStep, ht] at h
    simp [← h]

/-- No summary block touches the session counter (tts case). -/
theorem summaryTTSStep_session {v : Value} {u w : UsageTotals}
    (h : summaryTTSStep v u = some w) : w.session_ms = u.session_ms := by
  by_cases ht : truthy v = true
  · cases v with
    | vdict d =>
      simp [summaryTTSStep, ht] at h
      simp [← h]
    | vnone => simp [summaryTTSStep, ht] at h
    | vint n => simp [summaryTTSStep, ht] at h
    | vfloat q => simp [summaryTTSStep, ht] at h
    | vstr s => simp [summaryTTSStep, ht] at h
  · simp [summaryTTSStep, ht] at h
    simp [← h]

/-- `ingest_usage_summary` never touches the session counter, on the normal
and the exception paths alike. -/
theorem ingest_usage_summary_session (u : UsageTotals) (s : Value) :
    ((ingest_usage_summary u s).1).session_ms = u.session_ms := by
  cases s with
  | vdict entries =>
    rw [ingest_usage_summary]
    by_cases he : entries.isEmpty
    · simp [he]
    · simp only [he, Bool.false_eq_true, if_neg, not_false_eq_true]
      rcases h1 : summaryLLMStep ((dlookup entries "llm").getD (.vdict [])) u with _ | u1
      · simp only [h1]
      · simp only [h1]
        have e1 := summaryLLMStep_session h1
        rcases h2 : summarySTTStep ((dlookup entries "stt").getD (.vdict [])) u1 with _ | u2
        · simpa [h2] using e1
        · simp only [h2]
          have e2 := summarySTTStep_session h2
          rcases h3 : summaryTTSStep ((dlookup entries "tts").getD (.vdict [])) u2 with _ | u3
          · simp only [h3]
            rw [e2, e1]
          · simp only [h3]
            have e3 := summaryTTSStep_session h3
            rw [e3, e2, e1]
  | vnone => rfl
  | vint n => rfl
  | vfloat q => rfl
  | vstr str => rfl

theorem monoLe_refl (a : UsageTotals) : monoLe a a :=
  ⟨le_refl _, le_refl _, le_refl _, le_refl _⟩

theorem monoLe_trans {a b c : UsageTotals} (h1 : monoLe a b) (h2 : monoLe b c) :
    monoLe a c :=
  ⟨h1.1.trans h2.1, h1.2.1.trans h2.2.1, h1.2.2.1.trans h2.2.2.1,
   h1.2.2.2.trans h2.2.2.2⟩

/-- Integer conversion of a nonnegative leaf is nonnegative. -/
theorem leafNonNeg_pyInt {v : Value} (h : leafNonNeg v = true) :
    ∀ n, pyInt v = .ok n → 0 ≤ n := by
  intro n hn
  cases v with
  | vint m =>
    injection hn with h2
    rw [← h2]
    exact of_decide_eq_true h
  | vfloat f =>
    cases f with
    | fin q =>
      simp only [pyInt, pyFloatToInt, Except.ok.injEq] at hn
      rw [← hn]
      exact pyTrunc_nonneg (of_decide_eq_true h)
    | inf => simp [pyInt, pyFloatToInt] at hn
    | ninf => simp [pyInt, pyFloatToInt] at hn
    | nan => simp [pyInt, pyFloatToInt] at hn
  | vstr s =>
    simp only [leafNonNeg, Bool.and_eq_true] at h
    have h1 := h.1
    simp only [pyInt] at hn
    rcases hps : pyStrToInt s with _ | m
    · rw [hps] at hn; cases hn
    · rw [hps] at hn
      injection hn with h2
      rw [hps] at h1
      rw [← h2]
      exact of_decide_eq_true h1
  | vnone => simp [pyInt] at hn
  | vdict d => simp [pyInt] at hn

/-- Float conversion of a nonnegative leaf is nonnegative (when finite). -/
theorem leafNonNeg_pyFloat {v : Value} (h : leafNonNeg v = true) :
    ∀ q, pyFloat v = .ok (.fin q) → 0 ≤ q := by
  intro q hq
  cases v with
  | vint m =>
    simp only [pyFloat] at hq
    split at hq
    · cases hq
    · injection hq with h2
      injection h2 with h3
      rw [← h3]
      exact_mod_cast of_decide_eq_true h
  | vfloat f =>
    cases f with
    | fin r =>
      simp only [pyFloat, Except.ok.injEq, PyFloat.fin.injEq] at hq
      rw [← hq]
      exact of_decide_eq_true h
    | inf => simp [pyFloat] at hq
    | ninf => simp [pyFloat] at hq
    | nan => simp [pyFloat] at hq
  | vstr s =>
    simp only [leafNonNeg, Bool.and_eq_true] at h
    have h2 := h.2
    simp only [pyFloat] at hq
    rcases hps : pyStrToFloat s with _ | f
    · rw [hps] at hq; cases hq
    · rw [hps] at hq
      injection hq with h3
      rw [hps, h3] at h2
      exact of_decide_eq_true h2
  | vnone => simp [pyFloat] at hq
  | vdict d => simp [pyFloat] at hq

/-- `vget` out of a shallowly nonnegative value yields a value whose
integer conversions are nonnegative. -/
theorem shallowNonNeg_vget {v : Value} (h : shallowNonNeg v = true)
    (key : String) : ∀ n, pyInt (vget v key .vnone) = .ok n → 0 ≤ n := by
  cases v with
  | vdict d =>
    simp only [vget]
    cases hl : dlookup d key with
    | none => simp [pyInt]
    | some w =>
      simp only [Option.getD_some]
      exact leafNonNeg_pyInt (dlookup_prop h hl)
  | vnone => simp [vget, pyInt]
  | vint m => simp [vget, pyInt]
  | vfloat q => simp [vget, pyInt]
  | vstr s => simp [vget, pyInt]

/-- Top-level field lookups out of nonnegative fields convert to
nonnegative integers. -/
theorem fieldsNonNeg_lookup {fields : List (String × Value)}
    (h : fieldsNonNeg fields = true) (key : String) :
    ∀ n, pyInt ((dlookup fields key).getD .vnone) = .ok n → 0 ≤ n := by
  cases hl : dlookup fields key with
  | none => simp [pyInt]
  | some w =>
    simp only [Option.getD_some]
    intro n hn
    have hw : shallowNonNeg w = true := dlookup_prop h hl
    cases w with
    | vdict d => simp [pyInt] at hn
    | vnone => simp [pyInt] at hn
    | vint m => exact leafNonNeg_pyInt (v := .vint m) hw _ hn
    | vfloat q => exact leafNonNeg_pyInt (v := .vfloat q) hw _ hn
    | vstr s => exact leafNonNeg_pyInt (v := .vstr s) hw _ hn

/-- Top-level field lookups out of nonnegative fields convert to
nonnegative finite floats. -/
theorem fieldsNonNeg_lookup_float {fields : List (String × Value)}
    (h : fieldsNonNeg fields = true) (key : String) :
    ∀ q, pyFloat ((dlookup fields key).getD .vnone) = .ok (.fin q) → 0 ≤ q := by
  cases hl : dlookup fields key with
  | none => simp [pyFloat]
  | some w =>
    simp only [Option.getD_some]
    intro q hq
    have hw : shallowNonNeg w = true := dlookup_prop h hl
    cases w with
    | vdict d => simp [pyFloat] at hq
    | vnone => simp [pyFloat] at hq
    | vint m => exact leafNonNeg_pyFloat (v := .vint m) hw _ hq
    | vfloat r => exact leafNonNeg_pyFloat (v := .vfloat r) hw _ hq
    | vstr s => exact leafNonNeg_pyFloat (v := .vstr s) hw _ hq

/-- The llm input-token delta is nonnegative on nonnegative fields. -/
theorem llmInputDelta_nonneg {fields : List (String × Value)}
    (h : fieldsNonNeg fields = true) : 0 ≤ llmInputDelta fields := by
  rw [llmInputDelta]
  apply _first_int_nonneg _ (le_refl 0)
  intro v hv
  have husage : shallowNonNeg ((dlookup fields "usage").getD .vnone) = true :=
    dlookup_getD_prop h rfl "usage"
  simp only [List.mem_cons, List.mem_singleton, List.not_mem_nil, or_false] at hv
  rcases hv with rfl | rfl | rfl | rfl
  · split
    · exact shallowNonNeg_vget husage _
    · simp [pyInt]
  · split
    · exact shallowNonNeg_vget husage _
    · simp [pyInt]
  · exact fieldsNonNeg_lookup h _
  · exact fieldsNonNeg_lookup h _

/-- The llm output-token delta is nonnegative on nonnegative fields. -/
theorem llmOutputDelta_nonneg {fields : List (String × Value)}
    (h : fieldsNonNeg fields = true) : 0 ≤ llmOutputDelta fields := by
  rw [llmOutputDelta]
  apply _first_int_nonneg _ (le_refl 0)
  intro v hv
  have husage : shallowNonNeg ((dlookup fields "usage").getD .vnone) = true :=
    dlookup_getD_prop h rfl "usage"
  simp only [List.mem_cons, List.mem_singleton, List.not_mem_nil, or_false] at hv
  rcases hv with rfl | rfl | rfl | rfl
  · split
    · exact shallowNonNeg_vget husage _
    · simp [pyInt]
  · split
    · exact shallowNonNeg_vget husage _
    · simp [pyInt]
  · exact fieldsNonNeg_lookup h _
  · exact fieldsNonNeg_lookup h _

/-- A successful stt audio delta is nonnegative on nonnegative fields. -/
theorem sttDelta_nonneg {fields : List (String × Value)}
    (h : fieldsNonNeg fields = true) :
    ∀ n, sttDelta fields = .ok n → 0 ≤ n := by
  intro n hn
  rw [sttDelta] at hn
  split at hn
  · injection hn with h2
    rw [← h2]
    apply _first_int_nonneg _ (le_refl 0)
    intro v hv
    simp only [List.mem_cons, List.not_mem_nil, or_false] at hv
    rcases hv with rfl | rfl
    · exact fieldsNonNeg_lookup h _
    · exact fieldsNonNeg_lookup h _
  · rcases hc : catchVT (int_float_x1000 ((dlookup fields "audio_duration").getD .vnone))
      with e | o
    · rw [hc] at hn; cases hn
    · rw [hc] at hn
      cases o with
      | none =>
        injection hn with h2
        rw [← h2]
      | some k =>
        injection hn with h2
        rw [← h2]
        obtain ⟨q, hq, hk⟩ := int_float_x1000_ok (catchVT_ok_some hc)
        rw [hk]
        apply pyTrunc_nonneg
        have h0 : 0 ≤ q := fieldsNonNeg_lookup_float h _ q hq
        positivity

/-- The tts character delta is nonnegative on nonnegative fields. -/
theorem ttsDelta_nonneg {fields : List (String × Value)}
    (h : fieldsNonNeg fields = true) : 0 ≤ ttsDelta fields := by
  rw [ttsDelta]
  apply _first_int_nonneg _ (le_refl 0)
  intro v hv
  simp only [List.mem_cons, List.mem_singleton, List.not_mem_nil, or_false] at hv
  rcases hv with rfl | rfl | rfl
  · exact fieldsNonNeg_lookup h _
  · exact fieldsNonNeg_lookup h _
  · exact fieldsNonNeg_lookup h _

/-- One nonnegative metric never decreases a counter, also when it raises. -/
theorem ingestOne_mono {m : Metric} (h : metricNonNeg m = true)
    (u : UsageTotals) : monoLe u ((ingestOne u m).1) := by
  cases m with
  | mnone => exact monoLe_refl u
  | obj cn fields =>
    have hf : fieldsNonNeg fields = true := h
    rw [ingestOne]
    rcases hd : durBlockErr fields with _ | e
    · simp only [hd]
      split
      · exact ⟨by simpa using llmInputDelta_nonneg hf,
          by simpa using llmOutputDelta_nonneg hf, le_refl _, le_refl _⟩
      · split
        · rcases hs : sttDelta fields with e2 | n
          · exact monoLe_refl u
          · exact ⟨le_refl _, le_refl _,
              by simpa using sttDelta_nonneg hf n hs, le_refl _⟩
        · split
          · exact ⟨le_refl _, le_refl _, le_refl _,
              by simpa using ttsDelta_nonneg hf⟩
          · exact monoLe_refl u
    · simp only [hd]
      exact monoLe_refl u

/-- A loop over nonnegative metrics never decreases a counter, also when
it stops at an exception. -/
theorem ingestLoop_mono (ms : List Metric) :
    ∀ u : UsageTotals, ms.all metricNonNeg = true →
      monoLe u ((ingestLoop u ms).1) := by
  induction ms with
  | nil => intro u _; exact monoLe_refl u
  | cons m rest ih =>
    intro u hall
    simp only [List.all_cons, Bool.and_eq_true] at hall
    rw [ingestLoop]
    rcases hm : ingestOne u m with ⟨u2, b⟩
    have m1 : monoLe u u2 := by
      have m2 := ingestOne_mono hall.1 u
      rw [hm] at m2
      exact m2
    cases b
    · exact monoLe_trans m1 (ih u2 hall.2)
    · exact m1

/-- `ingest_metrics` on nonnegative input never decreases a counter. -/
theorem ingest_metrics_mono {inp : MetricsInput} (h : inputNonNeg inp = true)
    (u : UsageTotals) : monoLe u ((ingest_metrics u inp).1) := by
  rw [ingest_metrics]
  split
  · cases inp with
    | single m => exact ingestLoop_mono [m] u (by simpa using h)
    | batch ms => exact ingestLoop_mono ms u h
  · exact monoLe_refl u

/-- Lookups out of a nonnegative summary entry convert to nonnegative
integers. -/
theorem summaryEntry_lookup {d : List (String × Value)}
    (h : shallowNonNeg (.vdict d) = true) (key : String) :
    ∀ n, pyInt ((dlookup d key).getD .vnone) = .ok n → 0 ≤ n := by
  have hall : d.all (fun p => leafNonNeg p.2) = true := h
  cases hl : dlookup d key with
  | none => simp [pyInt]
  | some w =>
    simp only [Option.getD_some]
    exact leafNonNeg_pyInt (dlookup_prop hall hl)

/-- The llm summary block never decreases a counter on nonnegative data. -/
theorem summaryLLMStep_mono {v : Value} (hv : shallowNonNeg v = true)
    {u w : UsageTotals} (h : summaryLLMStep v u = some w) : monoLe u w := by
  by_cases ht : truthy v = true
  · cases v with
    | vdict d =>
      simp only [summaryLLMStep, ht, if_pos, Option.some.injEq] at h
      have hin : 0 ≤ _first_int
          [(dlookup d "input_tokens").getD .vnone,
           (dlookup d "prompt_tokens").getD .vnone] 0 := by
        apply _first_int_nonneg _ (le_refl 0)
        intro x hx
        simp only [List.mem_cons, List.not_mem_nil, or_false] at hx
        rcases hx with rfl | rfl
        · exact summaryEntry_lookup hv _
        · exact summaryEntry_lookup hv _
      have hout : 0 ≤ _first_int
          [(dlookup d "output_tokens").getD .vnone,
           (dlookup d "completion_tokens").getD .vnone] 0 := by
        apply _first_int_nonneg _ (le_refl 0)
        intro x hx
        simp only [List.mem_cons, List.not_mem_nil, or_false] at hx
        rcases hx with rfl | rfl
        · exact summaryEntry_lookup hv _
        · exact summaryEntry_lookup hv _
      rw [← h]
      exact ⟨by simpa using hin, by simpa using hout, le_refl _, le_refl _⟩
    | vnone => simp [summaryLLMStep, ht] at h
    | vint n => simp [summaryLLMStep, ht] at h
    | vfloat q => simp [summaryLLMStep, ht] at h
    | vstr s => simp [summaryLLMStep, ht] at h
  · simp only [summaryLLMStep, ht, if_neg, Bool.false_eq_true, not_false_eq_true,
      Option.some.injEq] at h
    rw [← h]
    exact monoLe_refl u

/-- A nonnegative stt entry yields a nonnegative third `_first_int`
argument. -/
theorem sttThirdArg_nonneg {d : List (String × Value)}
    (hv : shallowNonNeg (.vdict d) = true) {third : Value}
    (h : sttThirdArg d = some third) : ∀ n, pyInt third = .ok n → 0 ≤ n := by
  have hall : d.all (fun p => leafNonNeg p.2) = true := hv
  rw [sttThirdArg] at h
  split at h
  · rcases hi : int_float_x1000 ((dlookup d "audio_duration").getD (.vint 0))
      with e | k
    · rw [hi] at h; cases h
    · rw [hi] at h
      injection h with h2
      rw [← h2]
      intro n hn
      simp only [pyInt, Except.ok.injEq] at hn
      rw [← hn]
      obtain ⟨q, hq, hk⟩ := int_float_x1000_ok hi
      rw [hk]
      apply pyTrunc_nonneg
      have h0 : 0 ≤ q := by
        rcases hl : dlookup d "audio_duration" with _ | w
        · rw [hl] at hq
          simp only [Option.getD_none, pyFloat] at hq
          split at hq
          · cases hq
          · injection hq with h3
            injection h3 with h4
            rw [← h4]
            norm_num
        · rw [hl] at hq
          simp only [Option.getD_some] at hq
          have hw : leafNonNeg w = true := dlookup_prop hall hl
          exact leafNonNeg_pyFloat hw q hq
      positivity
  · injection h with h2
    rw [← h2]
    intro n hn
    simp only [pyInt, Except.ok.injEq] at hn
    rw [← hn]

/-- The stt summary block never decreases a counter on nonnegative data. -/
theorem summarySTTStep_mono {v : Value} (hv : shallowNonNeg v = true)
    {u w : UsageTotals} (h : summarySTTStep v u = some w) : monoLe u w := by
  by_cases ht : truthy v = true
  · cases v with
    | vdict d =>
      rcases h3 : sttThirdArg d with _ | third
      · simp [summarySTTStep, ht, h3] at h
      · simp only [summarySTTStep, ht, if_pos, h3, Option.some.injEq] at h
        have hst : 0 ≤ _first_int
            [(dlookup d "audio_duration_ms").getD .vnone,
             (dlookup d "audio_ms").getD .vnone, third] 0 := by
          apply _first_int_nonneg _ (le_refl 0)
          intro x hx
          simp only [List.mem_cons, List.not_mem_nil, or_false] at hx
          rcases hx with rfl | rfl | rfl
          · exact summaryEntry_lookup hv _
          · exact summaryEntry_lookup hv _
          · exact sttThirdArg_nonneg hv h3
        rw [← h]
        exact ⟨le_refl _, le_refl _, by simpa using hst, le_refl _⟩
    | vnone => simp [summarySTTStep, ht] at h
    | vint n => simp [summarySTTStep, ht] at h
    | vfloat q => simp [summarySTTStep, ht] at h
    | vstr s => simp [summarySTTStep, ht] at h
  · simp only [summarySTTStep, ht, if_neg, Bool.false_eq_true, not_false_eq_true,
      Option.some.injEq] at h
    rw [← h]
    exact monoLe_refl u

/-- The tts summary block never decreases a counter on nonnegative data. -/
theorem summaryTTSStep_mono {v : Value} (hv : shallowNonNeg v = true)
    {u w : UsageTotals} (h : summaryTTSStep v u = some w) : monoLe u w := by
  by_cases ht : truthy v = true
  · cases v with
    | vdict d =>
      simp only [summaryTTSStep, ht, if_pos, Option.some.injEq] at h
      have hch : 0 ≤ _first_int
          [(dlookup d "characters_count").getD .vnone,
           (dlookup d "character_count").getD .vnone,
           (dlookup d "chars").getD .vnone] 0 := by
        apply _first_int_nonneg _ (le_refl 0)
        intro x hx
        simp only [List.mem_cons, List.not_mem_nil, or_false] at hx
        rcases hx with rfl | rfl | rfl
        · exact summaryEntry_lookup hv _
        · exact summaryEntry_lookup hv _
        · exact summaryEntry_lookup hv _
      rw [← h]
      exact ⟨le_refl _, le_refl _, le_refl _, by simpa using hch⟩
    | vnone => simp [summaryTTSStep, ht] at h
    | vint n => simp [summaryTTSStep, ht] at h
    | vfloat q => simp [summaryTTSStep, ht] at h
    | vstr s => simp [summaryTTSStep, ht] at h
  · simp only [summaryTTSStep, ht, if_neg, Bool.false_eq_true, not_false_eq_true,
      Option.some.injEq] at h
    rw [← h]
    exact monoLe_refl u

/-- `ingest_usage_summary` on a nonnegative summary never decreases a
counter, whether or not an exception escapes. -/
theorem ingest_usage_summary_mono {s : Value} (hs : summaryNonNeg s = true)
    (u : UsageTotals) : monoLe u ((ingest_usage_summary u s).1) := by
  cases s with
  | vdict entries =>
    have hllm : shallowNonNeg ((dlookup entries "llm").getD (.vdict [])) = true := by
      rcases hl : dlookup entries "llm" with _ | w
      · rfl
      · simpa using dlookup_prop hs hl
    have hstt : shallowNonNeg ((dlookup entries "stt").getD (.vdict [])) = true := by
      rcases hl : dlookup entries "stt" with _ | w
      · rfl
      · simpa using dlookup_prop hs hl
    have htts : shallowNonNeg ((dlookup entries "tts").getD (.vdict [])) = true := by
      rcases hl : dlookup entries "tts" with _ | w
      · rfl
      · simpa using dlookup_prop hs hl
    rw [ingest_usage_summary]
    by_cases he : entries.isEmpty
    · simp only [he, if_pos]
      exact monoLe_refl u
    · simp only [he, Bool.false_eq_true, if_neg, not_false_eq_true]
      rcases h1 : summaryLLMStep ((dlookup entries "llm").getD (.vdict [])) u with _ | u1
      · simp only [h1]
        exact monoLe_refl u
      · simp only [h1]
        have m1 := summaryLLMStep_mono hllm h1
        rcases h2 : summarySTTStep ((dlookup entries "stt").getD (.vdict [])) u1 with _ | u2
        · simp only [h2]
          exact m1
        · simp only [h2]
          have m2 := summarySTTStep_mono hstt h2
          rcases h3 : summaryTTSStep ((dlookup entries "tts").getD (.vdict [])) u2 with _ | u3
          · simp only [h3]
            exact monoLe_trans m1 m2
          · simp only [h3]
            exact monoLe_trans (monoLe_trans m1 m2) (summaryTTSStep_mono htts h3)
  | vnone => exact monoLe_refl u
  | vint n => exact monoLe_refl u
  | vfloat q => exact monoLe_refl u
  | vstr str => exact monoLe_refl u

/-- Ingestion calls preserve the start timestamp, the end timestamp and the
session counter of the session state. -/
theorem applyOp_preserves (s : SessionAnalytics) (op : IngestOp) :
    (applyOp s op).started_at_utc = s.started_at_utc ∧
    (applyOp s op).ended_at_utc = s.ended_at_utc ∧
    (applyOp s op).usage.session_ms = s.usage.session_ms := by
  cases op with
  | event i => exact ⟨rfl, rfl, ingest_metrics_session s.usage i⟩
  | summary v => exact ⟨rfl, rfl, ingest_usage_summary_session s.usage v⟩

/-- Sequences of ingestion calls preserve the start timestamp, the end
timestamp and the session counter. -/
theorem applyOps_preserves (ops : List IngestOp) :
    ∀ s : SessionAnalytics,
      (applyOps s ops).started_at_utc = s.started_at_utc ∧
      (applyOps s ops).ended_at_utc = s.ended_at_utc ∧
      (applyOps s ops).usage.session_ms = s.usage.session_ms := by
  induction ops with
  | nil => intro s; exact ⟨rfl, rfl, rfl⟩
  | cons op rest ih =>
    intro s
    obtain ⟨a1, a2, a3⟩ := applyOp_preserves s op
    obtain ⟨b1, b2, b3⟩ := ih (applyOp s op)
    exact ⟨b1.trans a1, b2.trans a2, b3.trans a3⟩

theorem end_ended_eq (x : SessionAnalytics) (now : Rat) :
    («end» x now).ended_at_utc = some (x.ended_at_utc.getD now) := rfl

theorem end_session_eq (x : SessionAnalytics) (now : Rat) :
    («end» x now).usage.session_ms
      = max 0 (pyTrunc ((x.ended_at_utc.getD now - x.started_at_utc) * 1000)) :=
  rfl

/-- A single-metric call is exactly one loop-body step. -/
theorem ingestLoop_one (w : UsageTotals) (m : Metric) :
    ingestLoop w [m] = ingestOne w m := by
  rw [ingestLoop]
  rcases hm : ingestOne w m with ⟨u2, b⟩
  cases b
  · rfl
  · rfl

/-- `ingest_metrics` on a single metric is the loop body: a truthy metric
goes through the loop, a falsy one is early-returned but the loop body
would ignore it anyway. -/
theorem ingest_metrics_single (u : UsageTotals) (m : Metric) :
    ingest_metrics u (.single m) = ingestOne u m := by
  rw [ingest_metrics]
  by_cases ht : truthyMetric m = true
  · simp only [truthyInput, ht, if_pos, toMetricList]
    exact ingestLoop_one u m
  · have hf : truthyMetric m = false := by
      revert ht; cases truthyMetric m <;> simp
    simp only [truthyInput, hf, Bool.false_eq_true, if_neg, not_false_eq_true]
    exact (ingestOne_of_falsy hf u).symm

/-! Claim theorems. -/

/-- C1: the claim says `ingest_usage_summary` returns without raising for
every input mapping, including one whose stt entry holds a non-numeric
string under "audio_duration".  The code contradicts this: the conditional
argument expression at analytics.py line 216 calls `float(...)` without a
`try/except`, so on exactly that input a `ValueError` escapes.  This
theorem evaluates the model at the failing input and shows the exception
flag raised. -/
theorem C1_summary_raises_on_malformed_audio_duration :
    (ingest_usage_summary zeroTotals (.vdict
      [("stt", .vdict [("audio_duration", .vstr "abc")])])).2 = true := by
  decide

/-- C2 counterexample: the claim says a speech-recognition event whose
"audio_duration" is present but unconvertible (here "abc") falls through to
"audio_duration_ms" = 500 and adds 500.  The code adds 0 instead: the
fallback is consulted only when "audio_duration" is absent. -/
theorem C2_counterexample :
    ((ingest_metrics zeroTotals (.single (.obj "dict"
      [("type", .vstr "stt"), ("audio_duration", .vstr "abc"),
       ("audio_duration_ms", .vint 500)]))).1).stt_audio_ms = 0 ∧
    (0 : Int) ≠ 500 := by
  constructor
  · decide
  · decide

/-- C2 amended: when the "audio_duration" field of a speech-recognition
event is present (not `None`) but fails numeric conversion with the
caught `ValueError`/`TypeError` (e.g. the string "abc"), the event
contributes 0 to `stt_audio_ms`, changes nothing else and raises nothing;
the millisecond fallback fields are never consulted in that case.  (The
event must not trip the independent `duration`/`duration_ms` block, which
can raise for any event.) -/
theorem C2_amended (u : UsageTotals) (cn : String)
    (fields : List (String × Value))
    (hcat : metricCategory cn fields = "stt")
    (hdur : durBlockErr fields = none)
    (hpresent : isVNone ((dlookup fields "audio_duration").getD .vnone) = false)
    (hfail : catchVT (int_float_x1000
        ((dlookup fields "audio_duration").getD .vnone)) = .ok none) :
    ingest_metrics u (.single (.obj cn fields)) = (u, false) := by
  have hdelta : sttDelta fields = .ok 0 := by
    rw [sttDelta]
    simp only [hpresent, Bool.false_eq_true, if_neg, not_false_eq_true, hfail]
  rw [ingest_metrics_single]
  simp [ingestOne, hdur, hcat, hdelta]

/-- C2 amended, witness at the counterexample input. -/
theorem C2_amended_witness :
    metricCategory "dict"
      [("type", .vstr "stt"), ("audio_duration", .vstr "abc"),
       ("audio_duration_ms", .vint 500)] = "stt" ∧
    durBlockErr
      [("type", .vstr "stt"), ("audio_duration", .vstr "abc"),
       ("audio_duration_ms", .vint 500)] = none ∧
    isVNone ((dlookup
      [("type", .vstr "stt"), ("audio_duration", .vstr "abc"),
       ("audio_duration_ms", .vint 500)] "audio_duration").getD .vnone) = false ∧
    catchVT (int_float_x1000 ((dlookup
      [("type", .vstr "stt"), ("audio_duration", .vstr "abc"),
       ("audio_duration_ms", .vint 500)] "audio_duration").getD .vnone))
      = .ok none ∧
    ingest_metrics zeroTotals (.single (.obj "dict"
      [("type", .vstr "stt"), ("audio_duration", .vstr "abc"),
       ("audio_duration_ms", .vint 500)])) = (zeroTotals, false) :=
  ⟨by decide, by decide, by decide, by decide,
   C2_amended zeroTotals "dict"
     [("type", .vstr "stt"), ("audio_duration", .vstr "abc"),
      ("audio_duration_ms", .vint 500)]
     (by decide) (by decide) (by decide) (by decide)⟩

/-- C3 counterexample: the claim says no single call can decrease a counter
below its prior value or below zero, for arbitrary untrusted input.  A
speech-synthesis event carrying "characters_count" = -3 drives `tts_chars`
from 0 to -3. -/
theorem C3_counterexample :
    ((ingest_metrics zeroTotals (.single (.obj "dict"
      [("type", .vstr "tts"), ("characters_count", .vint (-3))]))).1).tts_chars
      = -3 ∧
    ¬ (0 : Int) ≤ -3 := by
  constructor
  · decide
  · decide

/-- C3 amended: each counter other than `session_ms` is non-decreasing
across a single `ingest_metrics` or `ingest_usage_summary` call (and
`session_ms` is untouched), on normal and exception paths alike, provided
every numeric value in the input is nonnegative; the code adds extracted
integers without clamping, so arbitrary input with negative values can
decrease counters (see the counterexample). -/
theorem C3_amended (u : UsageTotals) (inp : MetricsInput) (s : Value)
    (h1 : inputNonNeg inp = true) (h2 : summaryNonNeg s = true) :
    (monoLe u ((ingest_metrics u inp).1) ∧
      ((ingest_metrics u inp).1).session_ms = u.session_ms) ∧
    (monoLe u ((ingest_usage_summary u s).1) ∧
      ((ingest_usage_summary u s).1).session_ms = u.session_ms) :=
  ⟨⟨ingest_metrics_mono h1 u, ingest_metrics_session u inp⟩,
   ⟨ingest_usage_summary_mono h2 u, ingest_usage_summary_session u s⟩⟩

/-- C3 amended, witness at concrete nonnegative inputs. -/
theorem C3_amended_witness :
    inputNonNeg (.single (.obj "dict"
      [("type", .vstr "tts"), ("characters_count", .vint 5)])) = true ∧
    summaryNonNeg (.vdict [("llm", .vdict [("input_tokens", .vint 3)])]) = true ∧
    ((monoLe zeroTotals ((ingest_metrics zeroTotals (.single (.obj "dict"
        [("type", .vstr "tts"), ("characters_count", .vint 5)]))).1) ∧
      ((ingest_metrics zeroTotals (.single (.obj "dict"
        [("type", .vstr "tts"), ("characters_count", .vint 5)]))).1).session_ms
        = zeroTotals.session_ms) ∧
     (monoLe zeroTotals ((ingest_usage_summary zeroTotals
        (.vdict [("llm", .vdict [("input_tokens", .vint 3)])])).1) ∧
      ((ingest_usage_summary zeroTotals
        (.vdict [("llm", .vdict [("input_tokens", .vint 3)])])).1).session_ms
        = zeroTotals.session_ms)) :=
  ⟨by decide, by decide,
   C3_amended zeroTotals
     (.single (.obj "dict" [("type", .vstr "tts"), ("characters_count", .vint 5)]))
     (.vdict [("llm", .vdict [("input_tokens", .vint 3)])])
     (by decide) (by decide)⟩

/-- C4 counterexample: the claim says `ingest_usage_summary` increments
each counter by exactly what `ingest_event` would extract from the same
fields, with "audio_duration" (seconds) taking priority over
"audio_duration_ms".  On fields carrying both "audio_duration" = 2 and
"audio_duration_ms" = 500 the summary path adds 500 (millisecond field
first) while the event path adds 2000 (seconds field first). -/
theorem C4_counterexample :
    ((ingest_usage_summary zeroTotals (.vdict
      [("stt", .vdict [("audio_duration", .vint 2),
        ("audio_duration_ms", .vint 500)])])).1).stt_audio_ms = 500 ∧
    ((ingest_metrics zeroTotals (.single (.obj "dict"
      [("type", .vstr "stt"), ("audio_duration", .vint 2),
       ("audio_duration_ms", .vint 500)]))).1).stt_audio_ms = 2000 ∧
    (500 : Int) ≠ 2000 := by
  refine ⟨by decide, ?_, by decide⟩
  rw [show ((ingest_metrics zeroTotals (.single (.obj "dict"
      [("type", .vstr "stt"), ("audio_duration", .vint 2),
       ("audio_duration_ms", .vint 500)]))).1).stt_audio_ms
      = 0 + pyTrunc (((2 : Int) : Rat) * 1000) from rfl]
  norm_num [pyTrunc]

/-- C4 amended: `ingest_usage_summary` is additive — it increments each
counter by a delta depending only on the summary, never overwriting the
running totals (this holds on the exception paths too).  Per provider
entry its extraction matches `ingest_event`: the tts chain is identical
(characters_count, character_count, chars), and the llm chain coincides
with `ingest_event`'s top-level chain whenever the entry has no truthy
nested "usage" object (only `ingest_event` consults one); but the stt
chain has the reverse priority — "audio_duration_ms" first, then
"audio_ms", and the seconds-denominated "audio_duration" conversion only
third — so whenever "audio_duration_ms" = n is present (and the unguarded
third-argument conversion does not raise), the block adds exactly n. -/
theorem C4_amended (u : UsageTotals) (s : Value) (d : List (String × Value))
    (n : Int) (third : Value)
    (hms : dlookup d "audio_duration_ms" = some (.vint n))
    (hthird : sttThirdArg d = some third)
    (hnousage : truthy ((dlookup d "usage").getD .vnone) = false) :
    (ingest_usage_summary u s).1
      = addT u ((ingest_usage_summary zeroTotals s).1) ∧
    summarySTTStep (.vdict d) u
      = some { u with stt_audio_ms := u.stt_audio_ms + n } ∧
    summaryLLMStep (.vdict d) u
      = some { u with
          llm_input_tokens := u.llm_input_tokens + llmInputDelta d
          llm_output_tokens := u.llm_output_tokens + llmOutputDelta d } ∧
    summaryTTSStep (.vdict d) u
      = some { u with tts_chars := u.tts_chars + ttsDelta d } := by
  have hne : d.isEmpty = false := dlookup_some_not_nil hms
  have ht : truthy (.vdict d) = true := by simp [truthy, hne]
  refine ⟨(ingest_usage_summary_shift u s).1, ?_, ?_, ?_⟩
  · simp only [summarySTTStep, ht, if_pos, hthird, hms, Option.getD_some,
      Option.some.injEq]
    simp [_first_int, pyInt]
  · have hin : llmInputDelta d = _first_int
        [(dlookup d "input_tokens").getD .vnone,
         (dlookup d "prompt_tokens").getD .vnone] 0 := by
      simp only [llmInputDelta, hnousage, Bool.false_eq_true, if_neg,
        not_false_eq_true]
      rfl
    have hout : llmOutputDelta d = _first_int
        [(dlookup d "output_tokens").getD .vnone,
         (dlookup d "completion_tokens").getD .vnone] 0 := by
      simp only [llmOutputDelta, hnousage, Bool.false_eq_true, if_neg,
        not_false_eq_true]
      rfl
    simp only [summaryLLMStep, ht, if_pos, Option.some.injEq]
    rw [hin, hout]
  · simp only [summaryTTSStep, ht, if_pos, Option.some.injEq]
    rw [ttsDelta]

/-- C4 amended, witness at the counterexample input. -/
theorem C4_amended_witness :
    (ingest_usage_summary zeroTotals (.vdict
      [("stt", .vdict [("audio_duration", .vint 2),
        ("audio_duration_ms", .vint 500)])])).1
      = addT zeroTotals ((ingest_usage_summary zeroTotals (.vdict
          [("stt", .vdict [("audio_duration", .vint 2),
            ("audio_duration_ms", .vint 500)])])).1) ∧
    summarySTTStep (.vdict [("audio_duration", .vint 2),
        ("audio_duration_ms", .vint 500)]) zeroTotals
      = some { zeroTotals with
          stt_audio_ms := zeroTotals.stt_audio_ms + 500 } ∧
    summaryLLMStep (.vdict [("audio_duration", .vint 2),
        ("audio_duration_ms", .vint 500)]) zeroTotals
      = some { zeroTotals with
          llm_input_tokens := zeroTotals.llm_input_tokens
            + llmInputDelta [("audio_duration", .vint 2),
                ("audio_duration_ms", .vint 500)]
          llm_output_tokens := zeroTotals.llm_output_tokens
            + llmOutputDelta [("audio_duration", .vint 2),
                ("audio_duration_ms", .vint 500)] } ∧
    summaryTTSStep (.vdict [("audio_duration", .vint 2),
        ("audio_duration_ms", .vint 500)]) zeroTotals
      = some { zeroTotals with
          tts_chars := zeroTotals.tts_chars
            + ttsDelta [("audio_duration", .vint 2),
                ("audio_duration_ms", .vint 500)] } :=
  C4_amended zeroTotals
    (.vdict [("stt", .vdict [("audio_duration", .vint 2),
      ("audio_duration_ms", .vint 500)])])
    [("audio_duration", .vint 2), ("audio_duration_ms", .vint 500)]
    500 (.vint (pyTrunc (((2 : Int) : Rat) * 1000))) rfl rfl (by decide)

/-- C5: finalize is idempotent.  For every starting session, every pair of
wall-clock samples and every sequence of ingestion calls between the two
`end` calls, the second `end` changes neither `ended_at_utc` nor
`session_ms`. -/
theorem C5_finalize_idempotent (s : SessionAnalytics) (now1 now2 : Rat)
    (ops : List IngestOp) :
    («end» (applyOps («end» s now1) ops) now2).ended_at_utc
      = («end» s now1).ended_at_utc ∧
    («end» (applyOps («end» s now1) ops) now2).usage.session_ms
      = («end» s now1).usage.session_ms := by
  obtain ⟨hstart, hended, hsession⟩ := applyOps_preserves ops («end» s now1)
  have hend1 : («end» s now1).ended_at_utc = some (s.ended_at_utc.getD now1) := rfl
  have hstart1 : («end» s now1).started_at_utc = s.started_at_utc := rfl
  constructor
  · rw [end_ended_eq (applyOps («end» s now1) ops) now2, hended, hend1,
      Option.getD_some]
  · rw [end_session_eq (applyOps («end» s now1) ops) now2,
      end_session_eq s now1, hended, hend1, hstart, hstart1, Option.getD_some]

/-- C6: the claim says `ingest_metrics` returns without raising for every
input, with malformed fields contributing zero.  The code contradicts
this: `int(float("inf") * 1000)` at analytics.py line 156 raises
`OverflowError`, which `except (ValueError, TypeError)` does not catch, so
a speech-recognition event with `audio_duration = "inf"` raises out of
`ingest_metrics`; the dead-valued `dur_ms` block at lines 117-130 has the
same uncaught conversion for an event of ANY category (here an event
carrying only `duration_ms = "inf"`).  This theorem evaluates the model at
both failing inputs and shows the exception escaping; empty and null
inputs, by contrast, are no-ops as the claim states. -/
theorem C6_ingest_event_raises_overflow :
    (ingest_metrics zeroTotals (.single (.obj "dict"
      [("type", .vstr "stt"), ("audio_duration", .vstr "inf")]))).2 = true ∧
    (ingest_metrics zeroTotals (.single (.obj "dict"
      [("duration_ms", .vstr "inf")]))).2 = true ∧
    ingest_metrics zeroTotals (.batch []) = (zeroTotals, false) ∧
    ingest_metrics zeroTotals (.single .mnone) = (zeroTotals, false) := by
  refine ⟨by decide, by decide, rfl, rfl⟩

/-- C7: batch ingestion is additive — ingesting a two-element batch equals
ingesting the two metrics one call at a time, whenever the first call does
not raise (well-formed events never raise; when the first metric does
raise, Python aborts the batch at that point, so no sequential-composition
statement is available).  Proved for all metric pairs, well-formed or not,
under that no-raise hypothesis. -/
theorem C7_batch_ingestion_additive (u : UsageTotals) (e1 e2 : Metric)
    (h1 : (ingest_metrics u (.single e1)).2 = false) :
    ingest_metrics u (.batch [e1, e2])
      = ingest_metrics (ingest_metrics u (.single e1)).1 (.single e2) := by
  simp only [ingest_metrics_single] at h1 ⊢
  rw [ingest_metrics]
  simp only [truthyInput, toMetricList, List.isEmpty_cons, Bool.not_false, if_pos]
  rw [ingestLoop]
  rcases hm : ingestOne u e1 with ⟨u2, b⟩
  rw [hm] at h1
  simp only at h1
  subst h1
  exact ingestLoop_one u2 e2

/-- C7, witness: two benign speech-synthesis events. -/
theorem C7_batch_ingestion_additive_witness :
    (ingest_metrics zeroTotals (.single (.obj "dict"
      [("type", .vstr "tts"), ("characters_count", .vint 5)]))).2 = false ∧
    ingest_metrics zeroTotals (.batch
      [.obj "dict" [("type", .vstr "tts"), ("characters_count", .vint 5)],
       .obj "dict" [("type", .vstr "tts"), ("characters_count", .vint 7)]])
      = ingest_metrics (ingest_metrics zeroTotals (.single (.obj "dict"
          [("type", .vstr "tts"), ("characters_count", .vint 5)]))).1
          (.single (.obj "dict"
            [("type", .vstr "tts"), ("characters_count", .vint 7)])) :=
  ⟨by decide,
   C7_batch_ingestion_additive zeroTotals
     (.obj "dict" [("type", .vstr "tts"), ("characters_count", .vint 5)])
     (.obj "dict" [("type", .vstr "tts"), ("characters_count", .vint 7)])
     (by decide)⟩

/-- C8: the language-model cost is computed as
(input tokens / 1e6) x input price + (output tokens / 1e6) x output price
(rounded to 6 decimals for presentation), and at 1,000,000 input tokens,
500,000 output tokens and the default prices 0.40 / 1.60 per million the
reported cost is exactly 1.20. -/
theorem C8_language_model_cost :
    (∀ (p : PricingUSD) (u : UsageTotals),
      (compute_cost_usd p u).breakdown_usd.openai
        = roundTo (((u.llm_input_tokens : Rat) / 1000000) * p.openai_in_per_million
            + ((u.llm_output_tokens : Rat) / 1000000) * p.openai_out_per_million) 6) ∧
    (compute_cost_usd defaultPricing
      { llm_input_tokens := 1000000, llm_output_tokens := 500000 }).breakdown_usd.openai
      = 6/5 := by
  refine ⟨fun p u => rfl, ?_⟩
  rw [show (compute_cost_usd defaultPricing
      { llm_input_tokens := 1000000, llm_output_tokens := 500000 }).breakdown_usd.openai
      = roundTo ((((1000000 : Int) : Rat) / 1000000) * (0.40 : Rat)
          + (((500000 : Int) : Rat) / 1000000) * (1.60 : Rat)) 6 from rfl]
  rw [show ((((1000000 : Int) : Rat) / 1000000) * (0.40 : Rat)
          + (((500000 : Int) : Rat) / 1000000) * (1.60 : Rat)) = 6/5 by norm_num]
  rw [roundTo, show ((6 : Rat)/5 * (10 : Rat) ^ (6 : Nat)) = 1200000 by norm_num]
  rw [show roundHalfToEven 1200000 = 1200000 by
    rw [roundHalfToEven]
    norm_num]
  norm_num

/-- C9: `report` finalizes the session and returns a mapping whose only
top-level key is "cost"; the total, breakdown and usage digest live one
level below it, inside the `compute_cost_usd` result evaluated on the
finalized state. -/
theorem C9_report_shape (s : SessionAnalytics) (now : Rat) :
    ((report s now).2).map Prod.fst = ["cost"] ∧
    (report s now).2
      = [("cost", compute_cost_usd s.pricing ((«end» s now).usage))] :=
  ⟨rfl, rfl⟩

/-- C10: token/character counters follow Python `int` coercion while
durations follow `float` coercion: a float 2.9 under "characters_count"
contributes its truncation 2; the integer numeral string "7" contributes
7; the decimal numeral string "2.5" fails `int` conversion and falls
through to "character_count"; yet a speech-recognition "audio_duration" of
"2.5" is accepted by `float` and contributes 2500 ms.  None of these
events raises. -/
theorem C10_int_float_coercion (u : UsageTotals) (c : Int) :
    ((ingest_metrics u (.single (.obj "dict"
        [("type", .vstr "tts"),
         ("characters_count", .vfloat (.fin (29/10)))]))).1.tts_chars
        = u.tts_chars + 2
      ∧ (ingest_metrics u (.single (.obj "dict"
          [("type", .vstr "tts"),
           ("characters_count", .vfloat (.fin (29/10)))]))).2 = false) ∧
    ((ingest_metrics u (.single (.obj "dict"
        [("type", .vstr "tts"), ("characters_count", .vstr "7")]))).1.tts_chars
        = u.tts_chars + 7
      ∧ (ingest_metrics u (.single (.obj "dict"
          [("type", .vstr "tts"), ("characters_count", .vstr "7")]))).2 = false) ∧
    ((ingest_metrics u (.single (.obj "dict"
        [("type", .vstr "tts"), ("characters_count", .vstr "2.5"),
         ("character_count", .vint c)]))).1.tts_chars
        = u.tts_chars + c
      ∧ (ingest_metrics u (.single (.obj "dict"
          [("type", .vstr "tts"), ("characters_count", .vstr "2.5"),
           ("character_count", .vint c)]))).2 = false) ∧
    ((ingest_metrics u (.single (.obj "dict"
        [("type", .vstr "stt"), ("audio_duration", .vstr "2.5")]))).1.stt_audio_ms
        = u.stt_audio_ms + 2500
      ∧ (ingest_metrics u (.single (.obj "dict"
          [("type", .vstr "stt"), ("audio_duration", .vstr "2.5")]))).2 = false) := by
  refine ⟨⟨?_, rfl⟩, ⟨?_, rfl⟩, ⟨?_, rfl⟩, ⟨?_, rfl⟩⟩
  · rw [show (ingest_metrics u (.single (.obj "dict"
        [("type", .vstr "tts"),
         ("characters_count", .vfloat (.fin (29/10)))]))).1.tts_chars
      = u.tts_chars + pyTrunc (29/10) from rfl]
    rw [show pyTrunc ((29 : Rat)/10) = 2 by rw [pyTrunc]; norm_num]
  · rw [show (ingest_metrics u (.single (.obj "dict"
        [("type", .vstr "tts"), ("characters_count", .vstr "7")]))).1.tts_chars
      = u.tts_chars + 7 from rfl]
  · rw [show (ingest_metrics u (.single (.obj "dict"
        [("type", .vstr "tts"), ("characters_count", .vstr "2.5"),
         ("character_count", .vint c)]))).1.tts_chars
      = u.tts_chars + c from rfl]
  · rw [show (ingest_metrics u (.single (.obj "dict"
        [("type", .vstr "stt"), ("audio_duration", .vstr "2.5")]))).1.stt_audio_ms
      = u.stt_audio_ms + pyTrunc (decValue 25 (-((1 : Nat) : Int)) * 1000) from rfl]
    rw [show pyTrunc (decValue 25 (-((1 : Nat) : Int)) * 1000) = 2500 by
      rw [pyTrunc, decValue]
      norm_num]
